import Mathlib

/-!
Verification development for the payroll-tracking application
(employees, daily attendance, wage calculation, payments, reports).

The source's core operations are shallowly embedded here:
 * the wage-calculation aggregation of WagesModule.calculateWages
   (classification of attendance records and the derived amounts),
 * WagesModule.markAsPaid (flip is_paid, insert a Payment),
 * AttendanceModule.handleSubmit (attendance upsert by (employee, date)),
 * ReportModule.fetchEmployeeSummaries and ReportModule.getTotalAmount.

Currency amounts and overtime hours are modelled as exact rationals,
following the specification's requirement that monetary arithmetic be
decimal-safe; day counts are naturals; dates and timestamps are the
ISO strings the source stores, ordered lexicographically exactly as the
store's range queries order them.  The persistence store is a record of
four tables; each stateful operation is a function from store state (plus
the request parameters and the clock values the source reads) to store
state, with fallible variants returning Except.
-/

namespace Payroll

/-- Attendance status: the closed union type of the source
(the database column is CHECKed to these three values). -/
inductive Status where
  | present
  | absent
  | halfDay
deriving Repr, DecidableEq

structure Employee where
  id : String
  name : String
  email : String
  phone : String
  emp_position : String
  daily_wage : ℚ
  overtime_rate : ℚ
  half_day_rate : ℚ
  is_active : Bool
deriving Repr, DecidableEq

structure Attendance where
  id : String
  employee_id : String
  date : String
  status : Status
  overtime_hours : ℚ
  advance_taken : ℚ
  notes : String
  created_at : String
  updated_at : String
deriving Repr, DecidableEq

structure WageCalculation where
  id : String
  employee_id : String
  period_start : String
  period_end : String
  period_type : String
  present_days : Nat
  half_days : Nat
  absent_days : Nat
  total_overtime_hours : ℚ
  base_wage : ℚ
  overtime_amount : ℚ
  half_day_amount : ℚ
  total_advances : ℚ
  gross_amount : ℚ
  net_amount : ℚ
  is_paid : Bool
  updated_at : String
deriving Repr, DecidableEq

structure Payment where
  wage_calculation_id : String
  employee_id : String
  amount : ℚ
  payment_date : String
  payment_method : String
  notes : String
deriving Repr, DecidableEq

/-- The persistence store: the four tables of the schema. -/
structure DB where
  employees : List Employee
  attendance : List Attendance
  calculations : List WageCalculation
  payments : List Payment
deriving Repr, DecidableEq

/-- Error taxonomy of the specification. -/
inductive WageError where
  | validationError
  | notFoundError
  | conflictError
  | persistenceError
deriving Repr, DecidableEq

/-- The immutable breakdown value produced by the wage calculation
(interface CalculationBreakdown in WagesModule). -/
structure CalculationBreakdown where
  presentDays : Nat
  halfDays : Nat
  absentDays : Nat
  totalOvertimeHours : ℚ
  baseWage : ℚ
  overtimeAmount : ℚ
  halfDayAmount : ℚ
  totalAdvances : ℚ
  grossAmount : ℚ
  netAmount : ℚ
deriving Repr, DecidableEq

/-- The five accumulators of the forEach loop of calculateWages. -/
structure Counters where
  presentDays : Nat
  halfDays : Nat
  absentDays : Nat
  totalOvertimeHours : ℚ
  totalAdvances : ℚ
deriving Repr, DecidableEq

def initCounters : Counters :=
  { presentDays := 0, halfDays := 0, absentDays := 0
    totalOvertimeHours := 0, totalAdvances := 0 }

/-- One iteration of the forEach loop of calculateWages: classify the
record by status into exactly one day counter, then accumulate
overtime_hours and advance_taken unconditionally. -/
def tallyRecord (c : Counters) (r : Attendance) : Counters :=
  let c1 :=
    match r.status with
    | .present => { c with presentDays := c.presentDays + 1 }
    | .halfDay => { c with halfDays := c.halfDays + 1 }
    | .absent => { c with absentDays := c.absentDays + 1 }
  { c1 with totalOvertimeHours := c1.totalOvertimeHours + r.overtime_hours
            totalAdvances := c1.totalAdvances + r.advance_taken }

def tally (records : List Attendance) : Counters :=
  records.foldl tallyRecord initCounters

/-- The pure aggregation of calculateWages (WagesModule lines 140 to 171):
tally the attendance records, then derive the pay amounts from the
employee's three rates.  No clamping is applied anywhere. -/
def computeBreakdown (employee : Employee) (attendanceRecords : List Attendance) :
    CalculationBreakdown :=
  let t := tally attendanceRecords
  let baseWage : ℚ := (t.presentDays : ℚ) * employee.daily_wage
  let halfDayAmount : ℚ := (t.halfDays : ℚ) * employee.half_day_rate
  let overtimeAmount : ℚ := t.totalOvertimeHours * employee.overtime_rate
  let grossAmount : ℚ := baseWage + halfDayAmount + overtimeAmount
  let netAmount : ℚ := grossAmount - t.totalAdvances
  { presentDays := t.presentDays, halfDays := t.halfDays, absentDays := t.absentDays
    totalOvertimeHours := t.totalOvertimeHours, baseWage := baseWage
    overtimeAmount := overtimeAmount, halfDayAmount := halfDayAmount
    totalAdvances := t.totalAdvances, grossAmount := grossAmount, netAmount := netAmount }

/-- Boolean form of the store's lexicographic order on ISO date strings
(proved equivalent to the String order below). -/
def dateLeb (a b : String) : Bool := decide (a.data ≤ b.data)

/-- Boolean form of the strict lexicographic order on ISO date strings. -/
def dateLtb (a b : String) : Bool := decide (a.data < b.data)

lemma dateLeb_iff (a b : String) : dateLeb a b = true ↔ a ≤ b := by
  rw [dateLeb, decide_eq_true_iff]
  exact String.le_iff_toList_le.symm

/-- Employee lookup of calculateWages (select by id, single). -/
def findEmployee (db : DB) (employeeId : String) : Option Employee :=
  db.employees.find? (fun e => e.id == employeeId)

/-- The store's range query of calculateWages: attendance rows of the
selected employee with startDate <= date <= endDate (both inclusive). -/
def attendanceInRange (db : DB) (employeeId startDate endDate : String) :
    List Attendance :=
  db.attendance.filter (fun r =>
    r.employee_id == employeeId && dateLeb startDate r.date && dateLeb r.date endDate)

/-- calculateWages (WagesModule lines 112 to 207): reject an empty
employee selection or empty dates, reject an unresolvable employee
(both surfaced as validation failures), otherwise aggregate the in-range
attendance, insert the resulting WageCalculation with is_paid false, and
return the breakdown together with the new store state.  The source has
no guard comparing endDate against startDate. -/
def calculateWages (db : DB)
    (selectedEmployee startDate endDate periodType freshId now : String) :
    Except WageError (CalculationBreakdown × DB) :=
  if selectedEmployee = "" ∨ startDate = "" ∨ endDate = "" then
    .error .validationError
  else
    match findEmployee db selectedEmployee with
    | none => .error .validationError
    | some employee =>
      let records := attendanceInRange db selectedEmployee startDate endDate
      let b := computeBreakdown employee records
      let newCalc : WageCalculation :=
        { id := freshId, employee_id := selectedEmployee
          period_start := startDate, period_end := endDate, period_type := periodType
          present_days := b.presentDays, half_days := b.halfDays
          absent_days := b.absentDays, total_overtime_hours := b.totalOvertimeHours
          base_wage := b.baseWage, overtime_amount := b.overtimeAmount
          half_day_amount := b.halfDayAmount, total_advances := b.totalAdvances
          gross_amount := b.grossAmount, net_amount := b.netAmount
          is_paid := false, updated_at := now }
      .ok (b, { db with calculations := db.calculations ++ [newCalc] })

def exceptIsOk {ε α : Type} : Except ε α → Bool
  | .ok _ => true
  | .error _ => false

/-- The conditional update of markAsPaid on one wage_calculations row:
set is_paid true and refresh updated_at where the id matches. -/
def setPaid (calculationId now : String) (c : WageCalculation) : WageCalculation :=
  if c.id == calculationId then { c with is_paid := true, updated_at := now } else c

/-- The Payment row markAsPaid inserts (WagesModule lines 222 to 231):
amount copied verbatim from the calculation's net_amount, payment_date
the current date, payment_method fixed to cash, notes the generated
period summary. -/
def paymentFor (calculationId : String) (c : WageCalculation) (today : String) : Payment :=
  { wage_calculation_id := calculationId
    employee_id := c.employee_id
    amount := c.net_amount
    payment_date := today
    payment_method := "cash"
    notes := "Payment for " ++ c.period_type ++ " period: " ++
             c.period_start ++ " to " ++ c.period_end }

/-- The payments markAsPaid appends: one row when the calculation id
resolves (the source looks the calculation up in its fetched list),
none otherwise. -/
def insertedPayments (db : DB) (calculationId today : String) : List Payment :=
  match db.calculations.find? (fun c => c.id == calculationId) with
  | some c => [paymentFor calculationId c today]
  | none => []

/-- markAsPaid (WagesModule lines 209 to 242): unconditionally set
is_paid true on the matching calculation (no already-paid guard), then
insert one Payment built from the calculation as fetched before the
update.  The parameter now is the timestamp written to updated_at and
today the current date written to payment_date. -/
def markAsPaid (db : DB) (calculationId now today : String) : DB :=
  { db with
    calculations := db.calculations.map (setPaid calculationId now)
    payments := db.payments ++ insertedPayments db calculationId today }

/-- markAsPaid under a storage-fault model: each of the two awaited
writes may fail (the source throws and aborts on a returned error).
A failed is_paid update leaves the store untouched; a failed Payment
insert happens after the is_paid update has already committed, so only
the insert is lost. -/
def markAsPaidFaulty (db : DB) (calculationId now today : String)
    (failUpdate failInsert : Bool) : Except WageError Unit × DB :=
  if failUpdate then (.error .persistenceError, db)
  else
    let db1 := { db with calculations := db.calculations.map (setPaid calculationId now) }
    match db.calculations.find? (fun c => c.id == calculationId) with
    | some c =>
      if failInsert then (.error .persistenceError, db1)
      else (.ok (), { db1 with payments := db1.payments ++ [paymentFor calculationId c today] })
    | none => (.ok (), db1)

/-- The values submitted by the attendance form (status, overtime hours,
advance, notes); employee and date come from the selection state. -/
structure AttendanceInput where
  status : Status
  overtime_hours : ℚ
  advance_taken : ℚ
  notes : String
deriving Repr, DecidableEq

/-- The update branch of handleSubmit: the source sends every field of
the submitted record (employee_id and date included) plus a refreshed
updated_at, targeted at the existing row's id. -/
def updateExisting (cur : AttendanceInput) (employeeId date now existingId : String)
    (r : Attendance) : Attendance :=
  if r.id == existingId then
    { r with employee_id := employeeId, date := date, status := cur.status
             overtime_hours := cur.overtime_hours, advance_taken := cur.advance_taken
             notes := cur.notes, updated_at := now }
  else r

/-- handleSubmit of AttendanceModule (lines 69 to 111): reject an empty
selection, otherwise look up an existing row for (employee, date); when
one exists update it in place, else insert a new row (created_at and
updated_at take the store defaults, modelled by now; the new id is the
store-generated freshId). -/
def handleSubmit (db : DB) (selectedEmployee selectedDate : String)
    (cur : AttendanceInput) (now freshId : String) : DB :=
  if selectedEmployee = "" ∨ selectedDate = "" then db
  else
    match db.attendance.find? (fun r =>
        r.employee_id == selectedEmployee && r.date == selectedDate) with
    | some existing =>
      { db with attendance :=
          db.attendance.map (updateExisting cur selectedEmployee selectedDate now existing.id) }
    | none =>
      { db with attendance := db.attendance ++
          [{ id := freshId, employee_id := selectedEmployee, date := selectedDate
             status := cur.status, overtime_hours := cur.overtime_hours
             advance_taken := cur.advance_taken, notes := cur.notes
             created_at := now, updated_at := now }] }

/-- The attendance rows stored for one (employee, date) key. -/
def keyRecords (db : DB) (employeeId date : String) : List Attendance :=
  db.attendance.filter (fun r => r.employee_id == employeeId && r.date == date)

/-- One entry of the summary map of fetchEmployeeSummaries. -/
structure SummaryEntry where
  total : ℚ
  count : Nat
  lastDate : String
deriving Repr, DecidableEq

/-- One step of the summary-map fold of fetchEmployeeSummaries
(ReportModule lines 104 to 116): read the existing entry for the
payment's employee (or the zero entry), add the amount, bump the count,
keep the later date, and store it back. -/
def stepSummary (m : String → Option SummaryEntry) (p : Payment) :
    String → Option SummaryEntry :=
  fun k =>
    if k = p.employee_id then
      some (match m k with
        | none => { total := p.amount, count := 1, lastDate := p.payment_date }
        | some e =>
          { total := e.total + p.amount, count := e.count + 1
            lastDate := if dateLtb e.lastDate p.payment_date then p.payment_date else e.lastDate })
    else m k

def buildSummaryMap (ps : List Payment) : String → Option SummaryEntry :=
  ps.foldl stepSummary (fun _ => none)

/-- The store's range query shared by fetchPayments (with the all-employees
filter) and fetchEmployeeSummaries: payments with payment_date inside
the inclusive range. -/
def paymentsInRange (db : DB) (startDate endDate : String) : List Payment :=
  db.payments.filter (fun p =>
    dateLeb startDate p.payment_date && dateLeb p.payment_date endDate)

/-- One row of the per-employee rollup. -/
structure EmployeeSummary where
  employee : Employee
  totalPayments : ℚ
  paymentCount : Nat
  lastPaymentDate : Option String
deriving Repr, DecidableEq

/-- The summary row built for one employee from the summary map
(zeroes and null date when the map has no entry). -/
def mkSummary (m : String → Option SummaryEntry) (emp : Employee) : EmployeeSummary :=
  match m emp.id with
  | some s =>
    { employee := emp, totalPayments := s.total
      paymentCount := s.count, lastPaymentDate := some s.lastDate }
  | none =>
    { employee := emp, totalPayments := 0, paymentCount := 0, lastPaymentDate := none }

/-- fetchEmployeeSummaries (ReportModule lines 92 to 133): fold the
in-range payments into the summary map, build a row per employee, and
drop the rows with zero payment count. -/
def fetchEmployeeSummaries (db : DB) (startDate endDate : String) :
    List EmployeeSummary :=
  let m := buildSummaryMap (paymentsInRange db startDate endDate)
  (db.employees.map (mkSummary m)).filter (fun s => decide (0 < s.paymentCount))

/-- getTotalAmount (ReportModule lines 143 to 145): the flat reduce of
the listed payments' amounts. -/
def getTotalAmount (payments : List Payment) : ℚ :=
  payments.foldl (fun s p => s + p.amount) 0

/-! ### Helper lemmas about the wage-calculation tally -/

lemma tally_foldl (l : List Attendance) (c : Counters) :
    (l.foldl tallyRecord c).presentDays
      = c.presentDays + l.countP (fun r => r.status == Status.present) ∧
    (l.foldl tallyRecord c).halfDays
      = c.halfDays + l.countP (fun r => r.status == Status.halfDay) ∧
    (l.foldl tallyRecord c).absentDays
      = c.absentDays + l.countP (fun r => r.status == Status.absent) ∧
    (l.foldl tallyRecord c).totalOvertimeHours
      = c.totalOvertimeHours + (l.map Attendance.overtime_hours).sum ∧
    (l.foldl tallyRecord c).totalAdvances
      = c.totalAdvances + (l.map Attendance.advance_taken).sum := by
  induction l generalizing c with
  | nil => simp
  | cons r l ih =>
    obtain ⟨h1, h2, h3, h4, h5⟩ := ih (tallyRecord c r)
    refine ⟨?_, ?_, ?_, ?_, ?_⟩ <;>
      simp only [List.foldl_cons, h1, h2, h3, h4, h5, List.countP_cons,
        List.map_cons, List.sum_cons] <;>
      cases hr : r.status <;> simp [tallyRecord, hr] <;> ring

lemma countP_status_sum (l : List Attendance) :
    l.countP (fun r => r.status == Status.present)
      + l.countP (fun r => r.status == Status.halfDay)
      + l.countP (fun r => r.status == Status.absent) = l.length := by
  induction l with
  | nil => rfl
  | cons r l ih => cases hr : r.status <;> simp [List.countP_cons, hr] <;> omega

/-! ### Claims about the wage calculation -/

/-- Claim C1: for every employee and attendance record set, the breakdown
computed by the wage calculation satisfies base_wage = present_days times
daily_wage, half_day_amount = half_days times half_day_rate,
overtime_amount = total_overtime_hours times overtime_rate, gross_amount
= base_wage + half_day_amount + overtime_amount, and net_amount =
gross_amount - total_advances, with no clamping (the subtraction is exact,
so the net amount is negative whenever advances exceed gross). -/
theorem c1_breakdown_equations (employee : Employee) (records : List Attendance) :
    (computeBreakdown employee records).baseWage
      = ((computeBreakdown employee records).presentDays : ℚ) * employee.daily_wage ∧
    (computeBreakdown employee records).halfDayAmount
      = ((computeBreakdown employee records).halfDays : ℚ) * employee.half_day_rate ∧
    (computeBreakdown employee records).overtimeAmount
      = (computeBreakdown employee records).totalOvertimeHours * employee.overtime_rate ∧
    (computeBreakdown employee records).grossAmount
      = (computeBreakdown employee records).baseWage
        + (computeBreakdown employee records).halfDayAmount
        + (computeBreakdown employee records).overtimeAmount ∧
    (computeBreakdown employee records).netAmount
      = (computeBreakdown employee records).grossAmount
        - (computeBreakdown employee records).totalAdvances :=
  ⟨rfl, rfl, rfl, rfl, rfl⟩

/-- Claim C5: each attendance record is classified by its status into
exactly one of the three mutually exclusive day counters, so the three
counters sum to the number of records; overtime hours and advances are
accumulated over every record unconditionally, regardless of status. -/
theorem c5_classification (employee : Employee) (records : List Attendance) :
    (computeBreakdown employee records).presentDays
      = records.countP (fun r => r.status == Status.present) ∧
    (computeBreakdown employee records).halfDays
      = records.countP (fun r => r.status == Status.halfDay) ∧
    (computeBreakdown employee records).absentDays
      = records.countP (fun r => r.status == Status.absent) ∧
    (computeBreakdown employee records).presentDays
      + (computeBreakdown employee records).halfDays
      + (computeBreakdown employee records).absentDays = records.length ∧
    (computeBreakdown employee records).totalOvertimeHours
      = (records.map Attendance.overtime_hours).sum ∧
    (computeBreakdown employee records).totalAdvances
      = (records.map Attendance.advance_taken).sum := by
  obtain ⟨h1, h2, h3, h4, h5⟩ := tally_foldl records initCounters
  have e1 : (computeBreakdown employee records).presentDays
      = records.countP (fun r => r.status == Status.present) := by
    show (List.foldl tallyRecord initCounters records).presentDays = _
    rw [h1]; simp [initCounters]
  have e2 : (computeBreakdown employee records).halfDays
      = records.countP (fun r => r.status == Status.halfDay) := by
    show (List.foldl tallyRecord initCounters records).halfDays = _
    rw [h2]; simp [initCounters]
  have e3 : (computeBreakdown employee records).absentDays
      = records.countP (fun r => r.status == Status.absent) := by
    show (List.foldl tallyRecord initCounters records).absentDays = _
    rw [h3]; simp [initCounters]
  have e4 : (computeBreakdown employee records).totalOvertimeHours
      = (records.map Attendance.overtime_hours).sum := by
    show (List.foldl tallyRecord initCounters records).totalOvertimeHours = _
    rw [h4]; simp [initCounters]
  have e5 : (computeBreakdown employee records).totalAdvances
      = (records.map Attendance.advance_taken).sum := by
    show (List.foldl tallyRecord initCounters records).totalAdvances = _
    rw [h5]; simp [initCounters]
  refine ⟨e1, e2, e3, ?_, e4, e5⟩
  rw [e1, e2, e3]
  exact countP_status_sum records

/-- Claim C7: for every employee, the wage calculation applied to an
empty attendance set yields the all-zero breakdown: zero day counts,
zero overtime and advances, and zero for every derived amount. -/
theorem c7_empty_breakdown (employee : Employee) :
    computeBreakdown employee [] =
      { presentDays := 0, halfDays := 0, absentDays := 0, totalOvertimeHours := 0
        baseWage := 0, overtimeAmount := 0, halfDayAmount := 0, totalAdvances := 0
        grossAmount := 0, netAmount := 0 } := by
  simp [computeBreakdown, tally, initCounters]

/-! ### Helper lemmas about markAsPaid -/

lemma setPaid_id (calculationId now : String) (c : WageCalculation) :
    (setPaid calculationId now c).id = c.id := by
  simp only [setPaid]
  split <;> rfl

lemma find?_map_setPaid (l : List WageCalculation) (calculationId now : String)
    (c : WageCalculation)
    (h : l.find? (fun x => x.id == calculationId) = some c) :
    (l.map (setPaid calculationId now)).find? (fun x => x.id == calculationId)
      = some (setPaid calculationId now c) := by
  rw [List.find?_map]
  have hc : ((fun x => x.id == calculationId) ∘ setPaid calculationId now)
      = fun x => x.id == calculationId := by
    funext x
    simp [Function.comp, setPaid_id]
  rw [hc, h]
  rfl

lemma mem_map_setPaid_isPaid (l : List WageCalculation) (calculationId now : String) :
    ∀ x ∈ l.map (setPaid calculationId now), x.id = calculationId → x.is_paid = true := by
  intro x hx hid
  obtain ⟨x0, hx0, rfl⟩ := List.mem_map.mp hx
  by_cases h : x0.id = calculationId
  · simp [setPaid, h]
  · simp [setPaid, h] at hid

/-! ### Sample store states used as concrete inputs -/

def sampleEmployee : Employee :=
  { id := "e1", name := "Asha", email := "asha@x", phone := "", emp_position := ""
    daily_wage := 100, overtime_rate := 20, half_day_rate := 50, is_active := true }

def sampleCalc : WageCalculation :=
  { id := "c1", employee_id := "e1", period_start := "2024-01-01"
    period_end := "2024-01-07", period_type := "weekly"
    present_days := 3, half_days := 1, absent_days := 1
    total_overtime_hours := 2, base_wage := 300, overtime_amount := 40
    half_day_amount := 50, total_advances := 30, gross_amount := 390
    net_amount := 360, is_paid := false, updated_at := "t0" }

def dbWithCalc : DB :=
  { employees := [sampleEmployee], attendance := []
    calculations := [sampleCalc], payments := [] }

/-! ### Claims about markAsPaid -/

/-- Claim C4: a successful markAsPaid on an unpaid calculation sets
is_paid to true on every row with the given id and appends exactly one
Payment whose amount is the net_amount the calculation carried at the
moment of marking (copied, not re-derived) and whose payment_date is the
current date (no caller-supplied date exists in the source, so the
default always applies). -/
theorem c4_markPaid_success (db : DB) (calculationId now today : String)
    (c : WageCalculation)
    (hfind : db.calculations.find? (fun x => x.id == calculationId) = some c)
    (_hunpaid : c.is_paid = false) :
    (∀ x ∈ (markAsPaid db calculationId now today).calculations,
        x.id = calculationId → x.is_paid = true) ∧
    (markAsPaid db calculationId now today).payments
      = db.payments ++ [paymentFor calculationId c today] ∧
    (paymentFor calculationId c today).amount = c.net_amount ∧
    (paymentFor calculationId c today).payment_date = today := by
  refine ⟨?_, ?_, rfl, rfl⟩
  · exact mem_map_setPaid_isPaid db.calculations calculationId now
  · simp [markAsPaid, insertedPayments, hfind]

/-- Claim C4 witness: the sample store evaluated concretely. -/
theorem c4_markPaid_success_witness :
    (dbWithCalc.calculations.find? (fun x => x.id == "c1") = some sampleCalc) ∧
    sampleCalc.is_paid = false ∧
    ((∀ x ∈ (markAsPaid dbWithCalc "c1" "t1" "2024-01-08").calculations,
        x.id = "c1" → x.is_paid = true) ∧
    (markAsPaid dbWithCalc "c1" "t1" "2024-01-08").payments
      = dbWithCalc.payments ++ [paymentFor "c1" sampleCalc "2024-01-08"] ∧
    (paymentFor "c1" sampleCalc "2024-01-08").amount = sampleCalc.net_amount ∧
    (paymentFor "c1" sampleCalc "2024-01-08").payment_date = "2024-01-08") :=
  ⟨by decide, by decide,
    c4_markPaid_success dbWithCalc "c1" "t1" "2024-01-08" sampleCalc (by decide) (by decide)⟩

/-- Claim C10: every Payment created by markAsPaid carries payment_method
cash, payment_date equal to the current date at the time of the call, and
the generated period-summary notes; the source passes no caller-supplied
method, date or notes into the row. -/
theorem c10_payment_fields (db : DB) (calculationId now today : String)
    (c : WageCalculation)
    (hfind : db.calculations.find? (fun x => x.id == calculationId) = some c) :
    (markAsPaid db calculationId now today).payments
      = db.payments ++ [paymentFor calculationId c today] ∧
    (paymentFor calculationId c today).payment_method = "cash" ∧
    (paymentFor calculationId c today).payment_date = today ∧
    (paymentFor calculationId c today).notes
      = "Payment for " ++ c.period_type ++ " period: "
        ++ c.period_start ++ " to " ++ c.period_end :=
  ⟨by simp [markAsPaid, insertedPayments, hfind], rfl, rfl, rfl⟩

/-- Claim C10 witness: the sample store evaluated concretely. -/
theorem c10_payment_fields_witness :
    (dbWithCalc.calculations.find? (fun x => x.id == "c1") = some sampleCalc) ∧
    ((markAsPaid dbWithCalc "c1" "t1" "2024-01-08").payments
      = dbWithCalc.payments ++ [paymentFor "c1" sampleCalc "2024-01-08"] ∧
    (paymentFor "c1" sampleCalc "2024-01-08").payment_method = "cash" ∧
    (paymentFor "c1" sampleCalc "2024-01-08").payment_date = "2024-01-08" ∧
    (paymentFor "c1" sampleCalc "2024-01-08").notes
      = "Payment for " ++ sampleCalc.period_type ++ " period: "
        ++ sampleCalc.period_start ++ " to " ++ sampleCalc.period_end) :=
  ⟨by decide, c10_payment_fields dbWithCalc "c1" "t1" "2024-01-08" sampleCalc (by decide)⟩

/-- Claim C2 counterexample: on a store holding one unpaid calculation
and no payments, calling markAsPaid twice on that calculation leaves two
Payment rows referencing it, not one: the source neither rejects nor
no-ops the repeat call. -/
theorem c2_counterexample :
    ((markAsPaid (markAsPaid dbWithCalc "c1" "t1" "2024-01-08") "c1" "t2" "2024-01-09").payments.filter
        (fun p => p.wage_calculation_id == "c1")).length = 2 := by
  decide

/-- Claim C2 amended: calling markAsPaid twice on the same existing wage
calculation inserts two Payment rows for it (starting from a store with
none); the source has no already-paid guard, so the repeat call is
neither rejected as a conflict nor a no-op. -/
theorem c2_amended (db : DB) (calculationId now1 today1 now2 today2 : String)
    (c : WageCalculation)
    (hfind : db.calculations.find? (fun x => x.id == calculationId) = some c)
    (hnone : db.payments.filter (fun p => p.wage_calculation_id == calculationId) = []) :
    ((markAsPaid (markAsPaid db calculationId now1 today1) calculationId now2 today2).payments.filter
        (fun p => p.wage_calculation_id == calculationId)).length = 2 := by
  have hfind2 : ((markAsPaid db calculationId now1 today1).calculations).find?
      (fun x => x.id == calculationId) = some (setPaid calculationId now1 c) := by
    show ((db.calculations.map (setPaid calculationId now1)).find? _) = _
    exact find?_map_setPaid db.calculations calculationId now1 c hfind
  simp only [markAsPaid] at hfind2 ⊢
  simp [insertedPayments, hfind, hfind2, List.filter_append, hnone, paymentFor]

/-- Claim C2 amended witness: the sample store evaluated concretely. -/
theorem c2_amended_witness :
    (dbWithCalc.calculations.find? (fun x => x.id == "c1") = some sampleCalc) ∧
    (dbWithCalc.payments.filter (fun p => p.wage_calculation_id == "c1") = []) ∧
    ((markAsPaid (markAsPaid dbWithCalc "c1" "t1" "d1") "c1" "t2" "d2").payments.filter
        (fun p => p.wage_calculation_id == "c1")).length = 2 :=
  ⟨by decide, by decide,
    c2_amended dbWithCalc "c1" "t1" "d1" "t2" "d2" sampleCalc (by decide) (by decide)⟩

/-- Claim C3 counterexample: on the sample store, when the Payment insert
fails after the is_paid update has committed, markAsPaid surfaces a
persistence failure yet leaves the calculation flagged paid with no
Payment row, so the two writes are not atomic. -/
theorem c3_counterexample :
    (markAsPaidFaulty dbWithCalc "c1" "t1" "2024-01-08" false true).1
      = Except.error WageError.persistenceError ∧
    ((markAsPaidFaulty dbWithCalc "c1" "t1" "2024-01-08" false true).2.calculations.filter
        (fun x => x.id == "c1" && x.is_paid)).length = 1 ∧
    (markAsPaidFaulty dbWithCalc "c1" "t1" "2024-01-08" false true).2.payments = [] := by
  refine ⟨rfl, by decide, rfl⟩

/-- Claim C3 amended: a failure of the first write (the is_paid update)
surfaces a PersistenceError with the store unchanged, but a failure of
the second write (the Payment insert) happens after the is_paid update
has committed: the operation surfaces a PersistenceError while leaving
the calculation flagged is_paid=true with no Payment row inserted — the
two writes are not atomic and the flag is not rolled back. -/
theorem c3_amended (db : DB) (calculationId now today : String) (c : WageCalculation)
    (hfind : db.calculations.find? (fun x => x.id == calculationId) = some c) :
    markAsPaidFaulty db calculationId now today true false
      = (Except.error WageError.persistenceError, db) ∧
    (markAsPaidFaulty db calculationId now today false true).1
      = Except.error WageError.persistenceError ∧
    (∀ x ∈ (markAsPaidFaulty db calculationId now today false true).2.calculations,
        x.id = calculationId → x.is_paid = true) ∧
    (markAsPaidFaulty db calculationId now today false true).2.payments = db.payments := by
  refine ⟨rfl, ?_, ?_, ?_⟩
  · simp [markAsPaidFaulty, hfind]
  · intro x hx hid
    simp only [markAsPaidFaulty, hfind] at hx
    simp at hx
    exact mem_map_setPaid_isPaid db.calculations calculationId now x
      (List.mem_map.mpr (by simpa using hx)) hid
  · simp [markAsPaidFaulty, hfind]

/-- Claim C3 amended witness: the sample store evaluated concretely. -/
theorem c3_amended_witness :
    (dbWithCalc.calculations.find? (fun x => x.id == "c1") = some sampleCalc) ∧
    (markAsPaidFaulty dbWithCalc "c1" "t1" "d1" true false
      = (Except.error WageError.persistenceError, dbWithCalc) ∧
    (markAsPaidFaulty dbWithCalc "c1" "t1" "d1" false true).1
      = Except.error WageError.persistenceError ∧
    (∀ x ∈ (markAsPaidFaulty dbWithCalc "c1" "t1" "d1" false true).2.calculations,
        x.id = "c1" → x.is_paid = true) ∧
    (markAsPaidFaulty dbWithCalc "c1" "t1" "d1" false true).2.payments
      = dbWithCalc.payments) :=
  ⟨by decide, c3_amended dbWithCalc "c1" "t1" "d1" sampleCalc (by decide)⟩

/-! ### Claims about the error paths of calculateWages -/

lemma attendanceInRange_inverted (db : DB) (employeeId startDate endDate : String)
    (h : endDate < startDate) :
    attendanceInRange db employeeId startDate endDate = [] := by
  apply List.filter_eq_nil_iff.mpr
  intro r hr
  simp only [Bool.and_eq_true, dateLeb_iff, not_and]
  intro h1 h2
  exact absurd (le_trans h1.2 h2) (not_le.mpr h)

/-- Claim C6 counterexample: on a store holding the employee, a request
whose end date precedes its start date is not rejected: calculateWages
succeeds (with a vacuous breakdown) instead of failing with a
validation error, contradicting the claim. -/
theorem c6_counterexample :
    exceptIsOk (calculateWages dbWithCalc "e1" "2024-01-02" "2024-01-01" "weekly" "w1" "t0")
      = true := by
  decide

/-- Claim C6 amended: calculateWages fails with ValidationError when the
employee selection or either date is empty, and when the selected
employee is unresolvable; but when the end date precedes the start date
it does not fail: it succeeds, producing the vacuous breakdown of an
empty attendance set (the source has no inverted-range guard). -/
theorem c6_amended (db : DB)
    (selectedEmployee startDate endDate periodType freshId now : String) :
    ((selectedEmployee = "" ∨ startDate = "" ∨ endDate = "") →
      calculateWages db selectedEmployee startDate endDate periodType freshId now
        = Except.error WageError.validationError) ∧
    (selectedEmployee ≠ "" → startDate ≠ "" → endDate ≠ "" →
      findEmployee db selectedEmployee = none →
      calculateWages db selectedEmployee startDate endDate periodType freshId now
        = Except.error WageError.validationError) ∧
    (∀ employee, selectedEmployee ≠ "" → startDate ≠ "" → endDate ≠ "" →
      findEmployee db selectedEmployee = some employee → endDate < startDate →
      (calculateWages db selectedEmployee startDate endDate periodType freshId now).map
          Prod.fst = Except.ok (computeBreakdown employee [])) := by
  refine ⟨?_, ?_, ?_⟩
  · intro h
    rw [calculateWages, if_pos h]
  · intro h1 h2 h3 hnone
    rw [calculateWages, if_neg (by simp [h1, h2, h3]), hnone]
  · intro employee h1 h2 h3 hfind hlt
    rw [calculateWages, if_neg (by simp [h1, h2, h3]), hfind]
    simp [attendanceInRange_inverted db selectedEmployee startDate endDate hlt, Except.map]

/-- Claim C6 amended witness: the inverted-range branch evaluated on the
sample store. -/
theorem c6_amended_witness :
    (("e1" : String) ≠ "" ∧ ("2024-01-02" : String) ≠ "" ∧ ("2024-01-01" : String) ≠ "" ∧
     findEmployee dbWithCalc "e1" = some sampleEmployee ∧
     ("2024-01-01" : String) < "2024-01-02") ∧
    (calculateWages dbWithCalc "e1" "2024-01-02" "2024-01-01" "weekly" "w1" "t0").map
        Prod.fst = Except.ok (computeBreakdown sampleEmployee []) :=
  ⟨⟨by decide, by decide, by decide, by decide,
      by rw [String.lt_iff_toList_lt]; decide⟩,
    (c6_amended dbWithCalc "e1" "2024-01-02" "2024-01-01" "weekly" "w1" "t0").2.2
      sampleEmployee (by decide) (by decide) (by decide) (by decide)
      (by rw [String.lt_iff_toList_lt]; decide)⟩

/-! ### Claims about the attendance upsert -/

lemma singleton_of_mem_of_length_le {α : Type} (x : α) (l : List α)
    (h : x ∈ l) (hl : l.length ≤ 1) : l = [x] := by
  match l, h, hl with
  | [y], h, _ => simp_all
  | y :: z :: t, _, hl => simp at hl

lemma updateExisting_id (cur : AttendanceInput) (employeeId date now existingId : String)
    (r : Attendance) :
    (updateExisting cur employeeId date now existingId r).id = r.id := by
  simp only [updateExisting]
  split <;> rfl

/-- The single-call upsert lemma: on a store whose attendance table has
pairwise distinct ids and at most one row per (employee, date) key, one
handleSubmit leaves exactly one row for the submitted key, carrying the
submitted values; ids stay pairwise distinct and every id is an old id
or the fresh one. -/
lemma handleSubmit_upsert (db : DB) (emp date : String) (cur : AttendanceInput)
    (now freshId : String)
    (hemp : emp ≠ "") (hdate : date ≠ "")
    (hids : (db.attendance.map Attendance.id).Nodup)
    (hkey : (keyRecords db emp date).length ≤ 1)
    (hf : freshId ∉ db.attendance.map Attendance.id) :
    (∃ i c, keyRecords (handleSubmit db emp date cur now freshId) emp date
        = [{ id := i, employee_id := emp, date := date, status := cur.status
             overtime_hours := cur.overtime_hours, advance_taken := cur.advance_taken
             notes := cur.notes, created_at := c, updated_at := now }]) ∧
    ((handleSubmit db emp date cur now freshId).attendance.map Attendance.id).Nodup ∧
    (∀ x ∈ (handleSubmit db emp date cur now freshId).attendance.map Attendance.id,
        x ∈ db.attendance.map Attendance.id ∨ x = freshId) := by
  rw [handleSubmit, if_neg (by simp [hemp, hdate])]
  cases hfind : db.attendance.find? (fun r => r.employee_id == emp && r.date == date) with
  | none =>
    have hnone : ∀ r ∈ db.attendance,
        ¬ ((fun r => r.employee_id == emp && r.date == date) r = true) :=
      fun r hr => by simpa using List.find?_eq_none.mp hfind r hr
    refine ⟨⟨freshId, now, ?_⟩, ?_, ?_⟩
    · simp only [keyRecords, List.filter_append, List.filter_eq_nil_iff.mpr hnone,
        List.nil_append]
      simp
    · simp only [List.map_append, List.map_cons, List.map_nil]
      rw [List.nodup_append]
      exact ⟨hids, List.nodup_singleton freshId, by simpa [List.disjoint_right] using hf⟩
    · intro x hx
      simp only [List.map_append, List.map_cons, List.map_nil, List.mem_append,
        List.mem_singleton] at hx
      exact hx
  | some existing =>
    have hx : existing ∈ db.attendance := List.mem_of_find?_eq_some hfind
    have hpx : (existing.employee_id == emp && existing.date == date) = true := by
      have h0 := List.find?_some hfind
      simpa using h0
    have hsingle : keyRecords db emp date = [existing] :=
      singleton_of_mem_of_length_le existing _
        (List.mem_filter.mpr ⟨hx, hpx⟩) hkey
    have hcongr : ∀ r ∈ db.attendance,
        ((fun s => s.employee_id == emp && s.date == date)
            (updateExisting cur emp date now existing.id r))
          = (r.employee_id == emp && r.date == date) := by
      intro r hr
      by_cases hid : r.id = existing.id
      · have hre : r = existing :=
          List.inj_on_of_nodup_map hids hr hx hid

        subst hre
        simp [updateExisting, hpx]
      · simp [updateExisting, hid]
    refine ⟨⟨existing.id, existing.created_at, ?_⟩, ?_, ?_⟩
    · show (db.attendance.map (updateExisting cur emp date now existing.id)).filter _ = _
      rw [List.filter_map, List.filter_congr (by simpa using hcongr)]
      show (List.filter _ db.attendance).map _ = _
      rw [show (List.filter (fun s => s.employee_id == emp && s.date == date) db.attendance)
            = [existing] from hsingle]
      simp [updateExisting]
    · show ((db.attendance.map (updateExisting cur emp date now existing.id)).map
          Attendance.id).Nodup
      rw [List.map_map]
      have : (Attendance.id ∘ updateExisting cur emp date now existing.id)
          = fun r => Attendance.id r := by
        funext r
        simp [Function.comp, updateExisting_id]
      rw [this]
      exact hids
    · intro x hx2
      left
      simp only [List.map_map] at hx2
      obtain ⟨r, hr, hrx⟩ := List.mem_map.mp hx2
      have : x = r.id := by
        rw [← hrx]
        simp [Function.comp, updateExisting_id]
      rw [this]
      exact List.mem_map.mpr ⟨r, hr, rfl⟩

/-- Claim C8: marking attendance twice for the same (employee, date) key
(on a store with distinct row ids and at most one row per key, the store
constraints) leaves exactly one attendance row for that key, and that
row carries the values of the latest marking: update-existing upsert
semantics, not a second insert and not a rejection. -/
theorem c8_upsert (db : DB) (emp date : String) (cur1 cur2 : AttendanceInput)
    (now1 now2 f1 f2 : String)
    (hemp : emp ≠ "") (hdate : date ≠ "")
    (hids : (db.attendance.map Attendance.id).Nodup)
    (hkey : (keyRecords db emp date).length ≤ 1)
    (hf1 : f1 ∉ db.attendance.map Attendance.id)
    (hf2 : f2 ∉ db.attendance.map Attendance.id) (hne : f2 ≠ f1) :
    ∃ i c,
      keyRecords
          (handleSubmit (handleSubmit db emp date cur1 now1 f1) emp date cur2 now2 f2)
          emp date
        = [{ id := i, employee_id := emp, date := date, status := cur2.status
             overtime_hours := cur2.overtime_hours, advance_taken := cur2.advance_taken
             notes := cur2.notes, created_at := c, updated_at := now2 }] := by
  obtain ⟨⟨i1, c1, hk1⟩, hnd1, hsub1⟩ :=
    handleSubmit_upsert db emp date cur1 now1 f1 hemp hdate hids hkey hf1
  have hkey1 : (keyRecords (handleSubmit db emp date cur1 now1 f1) emp date).length ≤ 1 := by
    rw [hk1]
    simp
  have hf2a : f2 ∉ (handleSubmit db emp date cur1 now1 f1).attendance.map Attendance.id := by
    intro hmem
    rcases hsub1 f2 hmem with h | h
    · exact hf2 h
    · exact hne h
  obtain ⟨⟨i2, c2, hk2⟩, _, _⟩ :=
    handleSubmit_upsert (handleSubmit db emp date cur1 now1 f1) emp date cur2 now2 f2
      hemp hdate hnd1 hkey1 hf2a
  exact ⟨i2, c2, hk2⟩

def sampleInput1 : AttendanceInput :=
  { status := Status.present, overtime_hours := 2, advance_taken := 0, notes := "" }

def sampleInput2 : AttendanceInput :=
  { status := Status.halfDay, overtime_hours := 0, advance_taken := 30, notes := "late" }

/-- Claim C8 witness: two submissions for the same key on the sample
store, evaluated concretely. -/
theorem c8_upsert_witness :
    (("e1" : String) ≠ "" ∧ ("2024-01-03" : String) ≠ "" ∧
     (dbWithCalc.attendance.map Attendance.id).Nodup ∧
     (keyRecords dbWithCalc "e1" "2024-01-03").length ≤ 1 ∧
     "a1" ∉ dbWithCalc.attendance.map Attendance.id ∧
     "a2" ∉ dbWithCalc.attendance.map Attendance.id ∧ ("a2" : String) ≠ "a1") ∧
    ∃ i c,
      keyRecords
          (handleSubmit (handleSubmit dbWithCalc "e1" "2024-01-03" sampleInput1 "t1" "a1")
            "e1" "2024-01-03" sampleInput2 "t2" "a2")
          "e1" "2024-01-03"
        = [{ id := i, employee_id := "e1", date := "2024-01-03"
             status := sampleInput2.status
             overtime_hours := sampleInput2.overtime_hours
             advance_taken := sampleInput2.advance_taken
             notes := sampleInput2.notes, created_at := c, updated_at := "t2" }] :=
  ⟨⟨by decide, by decide, by decide, by decide, by decide, by decide, by decide⟩,
    c8_upsert dbWithCalc "e1" "2024-01-03" sampleInput1 sampleInput2 "t1" "t2" "a1" "a2"
      (by decide) (by decide) (by decide) (by decide) (by decide) (by decide) (by decide)⟩

/-! ### Claims about the report aggregation -/

def entryTotal : Option SummaryEntry → ℚ
  | none => 0
  | some e => e.total

def entryCount : Option SummaryEntry → Nat
  | none => 0
  | some e => e.count

lemma getTotalAmount_foldl (ps : List Payment) (s : ℚ) :
    ps.foldl (fun a p => a + p.amount) s = s + (ps.map Payment.amount).sum := by
  induction ps generalizing s with
  | nil => simp
  | cons p ps ih => simp [List.foldl_cons, ih, add_assoc]

lemma getTotalAmount_eq (ps : List Payment) :
    getTotalAmount ps = (ps.map Payment.amount).sum := by
  rw [getTotalAmount, getTotalAmount_foldl, zero_add]

lemma foldl_stepSummary_total (ps : List Payment) (m : String → Option SummaryEntry)
    (k : String) :
    entryTotal ((ps.foldl stepSummary m) k)
      = entryTotal (m k)
        + ((ps.filter (fun p => p.employee_id == k)).map Payment.amount).sum := by
  induction ps generalizing m with
  | nil => simp
  | cons p ps ih =>
    rw [List.foldl_cons, ih]
    by_cases hk : k = p.employee_id
    · subst hk
      simp only [List.filter_cons, beq_self_eq_true, if_true, List.map_cons, List.sum_cons]
      cases hm : m p.employee_id with
      | none =>
        simp [stepSummary, hm, entryTotal]
      | some e =>
        simp [stepSummary, hm, entryTotal]
        ring
    · have hb : (p.employee_id == k) = false := by
        simp only [beq_eq_false_iff_ne, ne_eq]
        exact fun h => hk h.symm
      simp only [List.filter_cons, hb, if_false, Bool.false_eq_true]
      simp [stepSummary, hk]

lemma foldl_stepSummary_count (ps : List Payment) (m : String → Option SummaryEntry)
    (k : String) :
    entryCount ((ps.foldl stepSummary m) k)
      = entryCount (m k) + (ps.filter (fun p => p.employee_id == k)).length := by
  induction ps generalizing m with
  | nil => simp
  | cons p ps ih =>
    rw [List.foldl_cons, ih]
    by_cases hk : k = p.employee_id
    · subst hk
      simp only [List.filter_cons, beq_self_eq_true, if_true, List.length_cons]
      cases hm : m p.employee_id with
      | none =>
        simp [stepSummary, hm, entryCount]
        omega
      | some e =>
        simp [stepSummary, hm, entryCount]
        omega
    · have hb : (p.employee_id == k) = false := by
        simp only [beq_eq_false_iff_ne, ne_eq]
        exact fun h => hk h.symm
      simp only [List.filter_cons, hb, if_false, Bool.false_eq_true]
      simp [stepSummary, hk]

lemma buildSummaryMap_total (ps : List Payment) (k : String) :
    entryTotal (buildSummaryMap ps k)
      = ((ps.filter (fun p => p.employee_id == k)).map Payment.amount).sum := by
  rw [buildSummaryMap, foldl_stepSummary_total]
  simp [entryTotal]

lemma buildSummaryMap_count (ps : List Payment) (k : String) :
    entryCount (buildSummaryMap ps k)
      = (ps.filter (fun p => p.employee_id == k)).length := by
  rw [buildSummaryMap, foldl_stepSummary_count]
  simp [entryCount]

lemma mkSummary_totalPayments (m : String → Option SummaryEntry) (emp : Employee) :
    (mkSummary m emp).totalPayments = entryTotal (m emp.id) := by
  rw [mkSummary]
  cases m emp.id <;> rfl

lemma mkSummary_paymentCount (m : String → Option SummaryEntry) (emp : Employee) :
    (mkSummary m emp).paymentCount = entryCount (m emp.id) := by
  rw [mkSummary]
  cases m emp.id <;> rfl

lemma mkSummary_employee (m : String → Option SummaryEntry) (emp : Employee) :
    (mkSummary m emp).employee = emp := by
  rw [mkSummary]
  cases m emp.id <;> rfl

lemma sum_map_add_q {α : Type} (l : List α) (f g : α → ℚ) :
    (l.map (fun x => f x + g x)).sum = (l.map f).sum + (l.map g).sum := by
  induction l with
  | nil => simp
  | cons x l ih =>
    simp [ih]
    ring

lemma sum_ite_unique (emps : List Employee) (k : String) (x : ℚ)
    (hnd : (emps.map Employee.id).Nodup)
    (hex : ∃ e ∈ emps, e.id = k) :
    (emps.map (fun e => if (k == e.id) = true then x else 0)).sum = x := by
  induction emps with
  | nil =>
    rcases hex with ⟨e, he, _⟩
    cases he
  | cons e0 rest ih =>
    rw [List.map_cons, List.sum_cons]
    rw [List.map_cons, List.nodup_cons] at hnd
    by_cases h0 : k = e0.id
    · rw [if_pos (by simp [h0])]
      have hz : (rest.map (fun e => if (k == e.id) = true then x else 0)).sum = 0 := by
        apply List.sum_eq_zero
        intro y hy
        obtain ⟨e, he, rfl⟩ := List.mem_map.mp hy
        have hke : ¬ k = e.id := by
          intro hke
          exact hnd.1 (by
            rw [← h0, hke]
            exact List.mem_map.mpr ⟨e, he, rfl⟩)
        rw [if_neg (by simp [hke])]
      rw [hz, add_zero]
    · rw [if_neg (by simp [h0]), zero_add]
      apply ih hnd.2
      rcases hex with ⟨e, he, hek⟩
      rcases List.mem_cons.mp he with rfl | hrest
      · exact absurd hek.symm h0
      · exact ⟨e, hrest, hek⟩

lemma sum_filter_partition (emps : List Employee) (ps : List Payment)
    (hnd : (emps.map Employee.id).Nodup)
    (hall : ∀ p ∈ ps, ∃ e ∈ emps, e.id = p.employee_id) :
    (emps.map (fun e =>
        ((ps.filter (fun q => q.employee_id == e.id)).map Payment.amount).sum)).sum
      = (ps.map Payment.amount).sum := by
  induction ps with
  | nil => simp
  | cons p ps ih =>
    have point : ∀ e : Employee,
        (((p :: ps).filter (fun q => q.employee_id == e.id)).map Payment.amount).sum
          = (if (p.employee_id == e.id) = true then p.amount else 0)
            + ((ps.filter (fun q => q.employee_id == e.id)).map Payment.amount).sum := by
      intro e
      by_cases hc : (p.employee_id == e.id) = true
      · simp [List.filter_cons, hc]
      · simp [List.filter_cons, hc]
    rw [List.map_congr_left (fun e _ => point e), sum_map_add_q,
      sum_ite_unique emps p.employee_id p.amount hnd (hall p (by simp)),
      ih (fun q hq => hall q (by simp [hq]))]
    simp

lemma sum_filter_pos_counts (l : List EmployeeSummary)
    (h0 : ∀ s ∈ l, s.paymentCount = 0 → s.totalPayments = 0) :
    ((l.filter (fun s => decide (0 < s.paymentCount))).map
        EmployeeSummary.totalPayments).sum
      = (l.map EmployeeSummary.totalPayments).sum := by
  induction l with
  | nil => simp
  | cons s l ih =>
    have ih2 := ih (fun t ht => h0 t (by simp [ht]))
    by_cases hc : 0 < s.paymentCount
    · simp [List.filter_cons, hc, ih2]
    · have hz : s.totalPayments = 0 := h0 s (by simp) (by omega)
      simp [List.filter_cons, hc, ih2, hz]

/-- Claim C9: on a store whose payments all reference listed employees
(the foreign key) and whose employee ids are pairwise distinct (the
primary key), every row returned by fetchEmployeeSummaries belongs to an
employee with at least one payment in range, and the per-employee totals
of the summary sum to exactly the flat total getTotalAmount computes
over the unfiltered in-range payment list. -/
theorem c9_summaries (db : DB) (startDate endDate : String)
    (hfk : ∀ p ∈ db.payments, ∃ e ∈ db.employees, e.id = p.employee_id)
    (hnd : (db.employees.map Employee.id).Nodup) :
    (∀ s ∈ fetchEmployeeSummaries db startDate endDate,
        (paymentsInRange db startDate endDate).filter
            (fun p => p.employee_id == s.employee.id) ≠ []) ∧
    ((fetchEmployeeSummaries db startDate endDate).map
        EmployeeSummary.totalPayments).sum
      = getTotalAmount (paymentsInRange db startDate endDate) := by
  have hfk2 : ∀ p ∈ paymentsInRange db startDate endDate,
      ∃ e ∈ db.employees, e.id = p.employee_id := by
    intro p hp
    exact hfk p (List.mem_filter.mp hp).1
  constructor
  · intro s hs
    rw [fetchEmployeeSummaries] at hs
    obtain ⟨hs1, hs2⟩ := List.mem_filter.mp hs
    obtain ⟨e, he, rfl⟩ := List.mem_map.mp hs1
    rw [mkSummary_employee]
    intro hnil
    rw [mkSummary_paymentCount, buildSummaryMap_count, hnil] at hs2
    simp at hs2
  · rw [fetchEmployeeSummaries, sum_filter_pos_counts, List.map_map]
    · rw [List.map_congr_left (fun e _ => by
        rw [Function.comp_apply, mkSummary_totalPayments, buildSummaryMap_total]),
        sum_filter_partition db.employees (paymentsInRange db startDate endDate) hnd hfk2,
        getTotalAmount_eq]
    · intro s hs hc0
      obtain ⟨e, he, rfl⟩ := List.mem_map.mp hs
      rw [mkSummary_totalPayments, buildSummaryMap_total]
      rw [mkSummary_paymentCount, buildSummaryMap_count] at hc0
      rw [List.eq_nil_of_length_eq_zero hc0]
      simp

def sampleEmployee2 : Employee :=
  { id := "e2", name := "Ben", email := "ben@x", phone := "", emp_position := ""
    daily_wage := 80, overtime_rate := 10, half_day_rate := 40, is_active := true }

def dbForReports : DB :=
  { employees := [sampleEmployee, sampleEmployee2], attendance := [], calculations := []
    payments :=
      [{ wage_calculation_id := "c1", employee_id := "e1", amount := 360
         payment_date := "2024-01-08", payment_method := "cash", notes := "" },
       { wage_calculation_id := "c2", employee_id := "e1", amount := 100
         payment_date := "2024-01-15", payment_method := "cash", notes := "" },
       { wage_calculation_id := "c3", employee_id := "e2", amount := 50
         payment_date := "2024-02-01", payment_method := "cash", notes := "" }] }

/-- Claim C9 witness: the sample report store evaluated concretely over
January 2024 (two in-range payments for one employee, one out-of-range
payment for the other). -/
theorem c9_summaries_witness :
    ((∀ p ∈ dbForReports.payments, ∃ e ∈ dbForReports.employees, e.id = p.employee_id) ∧
     (dbForReports.employees.map Employee.id).Nodup) ∧
    ((∀ s ∈ fetchEmployeeSummaries dbForReports "2024-01-01" "2024-01-31",
        (paymentsInRange dbForReports "2024-01-01" "2024-01-31").filter
            (fun p => p.employee_id == s.employee.id) ≠ []) ∧
    ((fetchEmployeeSummaries dbForReports "2024-01-01" "2024-01-31").map
        EmployeeSummary.totalPayments).sum
      = getTotalAmount (paymentsInRange dbForReports "2024-01-01" "2024-01-31")) :=
  ⟨⟨by decide, by decide⟩,
    c9_summaries dbForReports "2024-01-01" "2024-01-31" (by decide) (by decide)⟩

end Payroll
